import Mathlib

/-!
Verification of `src/utils.py` and `src/prepare_data.py` of the
Squire_2022_CAFE-f6 repository, against its natural-language specification.

The Python code operates on xarray labelled arrays.  We embed the data that the
verified functions actually inspect: a time series is a list of
(time stamp, value) pairs, a forecast is a list of entries indexed by
(init, lead) and carrying a two-dimensional time coordinate, and missing
values (NaN after masking or incomplete rolling windows) are `Option`.
Times are embedded as integers (cftime stamps are totally ordered); rationals
stand for the floating-point payload values, whose exact rounding is never at
issue in the claims below.
-/

namespace CafeF6

/-- Python exceptions raised by the verified code: `ValueError msg` for
`raise ValueError(msg)` and `assertionError` for the `AssertionError` that
`numpy.testing.assert_allclose` raises on failure. -/
inductive PyError where
  | valueError (msg : String)
  | assertionError
deriving DecidableEq, Repr

/-- Time-series filter underlying `keep_period` (`utils.py` line 1020):
`ds.sel(time=slice(period[0], period[1]))` on a monotonic time index keeps
exactly the entries whose time lies between the two bounds, inclusive. -/
def keep_period_ts (entries : List (Int × Rat)) (period : Int × Int) :
    List (Int × Rat) :=
  entries.filter (fun e => decide (period.1 ≤ e.1) && decide (e.1 ≤ period.2))

/-- The shapes of data `utils.keep_period` distinguishes (`utils.py` 1016-1022):
forecast data with `init` and `lead` dims (each entry holds its init index,
lead index, two-dimensional time coordinate and value), plain time series,
and anything else. -/
inductive XData where
  | timeseries (entries : List (Int × Rat))
  | forecast (entries : List (Int × Int × Int × Rat))
  | other
deriving DecidableEq, Repr

/-- Result of `keep_period`: time-series entries are selected, forecast
entries are masked (`None` = NaN from `where`). -/
inductive XKept where
  | timeseries (entries : List (Int × Rat))
  | forecast (entries : List (Int × Int × Int × Option Rat))
deriving DecidableEq, Repr

/-- Elementwise mask of `ds.where(mask)` with
`mask = (ds.time >= period[0]) & (ds.time <= period[1])`
(`utils.py` 1017): values outside the period become NaN (`none`). -/
def fc_mask (entries : List (Int × Int × Int × Rat)) (period : Int × Int) :
    List (Int × Int × Int × Option Rat) :=
  entries.map (fun e =>
    (e.1, e.2.1, e.2.2.1,
      if period.1 ≤ e.2.2.1 ∧ e.2.2.1 ≤ period.2 then some e.2.2.2 else none))

/-- The `drop=True` part of `where(mask, drop=True)`: index labels along `init`
and `lead` whose entries are all NaN are dropped. -/
def fc_drop (entries : List (Int × Int × Int × Option Rat)) :
    List (Int × Int × Int × Option Rat) :=
  let keptInit := entries.filterMap (fun e => if e.2.2.2.isSome then some e.1 else none)
  let keptLead := entries.filterMap (fun e => if e.2.2.2.isSome then some e.2.1 else none)
  entries.filter (fun e => keptInit.contains e.1 && keptLead.contains e.2.1)

/-- `utils.keep_period` (`utils.py` 992-1022).  Despite its docstring ("Keep
only times outside of a specified period") it retains the period: forecast
data (checked first) is masked by its two-dimensional time coordinate with
inclusive bounds and all-NaN slices dropped, time-series data is sliced
inclusively, and any other layout raises `ValueError`. -/
def keep_period (ds : XData) (period : Int × Int) : Except PyError XKept :=
  match ds with
  | .forecast entries => .ok (.forecast (fc_drop (fc_mask entries period)))
  | .timeseries entries => .ok (.timeseries (keep_period_ts entries period))
  | .other =>
      .error (.valueError "I don't know how to mask the time period for this data")

/-- Insertion step for sorting rationals (ascending). -/
def insertLe (x : Rat) : List Rat → List Rat
  | [] => [x]
  | y :: ys => if x ≤ y then x :: y :: ys else y :: insertLe x ys

/-- Ascending sort of a list of rationals, as `numpy` sorts before taking a
quantile. -/
def sortRat (xs : List Rat) : List Rat :=
  xs.foldr insertLe []

/-- `numpy.quantile` with the default linear interpolation: for a sorted
sample `s` of size `n`, the quantile `q` is `s[i] + (h - i) * (s[i+1] - s[i])`
where `h = q * (n - 1)` and `i = floor h`.  `none` models the NaN returned on
an empty sample. -/
def np_quantile (xs : List Rat) (q : Rat) : Option Rat :=
  match xs with
  | [] => none
  | _ =>
    let s := sortRat xs
    let h : Rat := q * ((s.length : Rat) - 1)
    let i : Nat := h.floor.toNat
    let lo := s.getD i 0
    let hi := s.getD (i + 1) lo
    some (lo + (h - (i : Rat)) * (hi - lo))

/-- `utils.calculate_percentile_thresholds` (`utils.py` 1096-1133) on a time
series with `frequency=None`: the quantile of the values kept within
`percentile_period`. -/
def calculate_percentile_thresholds_ts (ds : List (Int × Rat)) (percentile : Rat)
    (period : Int × Int) : Option Rat :=
  np_quantile ((keep_period_ts ds period).map Prod.snd) percentile

/-- The percentile threshold a given time stamp is compared against in
`over_percentile_threshold` / `under_percentile_threshold` (`utils.py`
1136-1209), on a time series.  With `frequency=None` the threshold is global;
with a frequency (embedded as the grouping key `freq`, e.g. the month
accessor) the entry is compared against its own group's threshold, computed
from the values of that group kept within the period. -/
def threshold_at (ds : List (Int × Rat)) (percentile : Rat) (period : Int × Int)
    (freq : Option (Int → Nat)) (t : Int) : Option Rat :=
  match freq with
  | none => calculate_percentile_thresholds_ts ds percentile period
  | some f =>
      np_quantile
        (((keep_period_ts ds period).filter (fun e => f e.1 == f t)).map Prod.snd)
        percentile

/-- `utils.over_percentile_threshold` (`utils.py` 1136-1171) on a time series:
`ds > thresholds`, a strict comparison; a NaN threshold (no climatology
values) compares `False`, as in numpy. -/
def over_percentile_threshold (ds : List (Int × Rat)) (percentile : Rat)
    (period : Int × Int) (freq : Option (Int → Nat)) : List (Int × Bool) :=
  ds.map (fun e =>
    (e.1, match threshold_at ds percentile period freq e.1 with
      | some c => decide (c < e.2)
      | none => false))

/-- `utils.under_percentile_threshold` (`utils.py` 1174-1209) on a time
series: `ds < thresholds`, a strict comparison against the same thresholds as
`over_percentile_threshold`. -/
def under_percentile_threshold (ds : List (Int × Rat)) (percentile : Rat)
    (period : Int × Int) (freq : Option (Int → Nat)) : List (Int × Bool) :=
  ds.map (fun e =>
    (e.1, match threshold_at ds percentile period freq e.1 with
      | some c => decide (e.2 < c)
      | none => false))

/-- The inner `compose` of `utils.composite_function` (`utils.py` 43-44):
`compose(f, g) = lambda x: g(f(x))`. -/
def compose {α : Type} (f g : α → α) : α → α :=
  fun x => g (f x)

/-- The inner `composite` of `utils.composite_function` (`utils.py` 42-46):
`reduce(compose, funcs, lambda x: x)`, a left fold of `compose` seeded with
the identity. -/
def composite {α : Type} (funcs : List (α → α)) : α → α :=
  funcs.foldl compose id

/-- `utils.composite_function` (`utils.py` 30-56).  The function dictionary is
embedded as an ordered list of (function name, optional kwargs) pairs (Python
dicts preserve insertion order); `lookup` embeds
`partial(getattr(utils, fn), **kws)`, with `emptyKw` for the `None → {}`
normalisation of absent kwargs. -/
def composite_function {α K : Type} (function_dict : List (String × Option K))
    (emptyKw : K) (lookup : String → K → α → α) : α → α :=
  composite (function_dict.map (fun p => lookup p.1 (p.2.getD emptyKw)))

/-- Sequential application, head first: the reference point the spec describes
(`fn_k(...fn_2(fn_1(x))...)`). -/
def applyInOrder {α : Type} : List (α → α) → α → α
  | [], x => x
  | f :: fs, x => applyInOrder fs (f x)

/-- Attribute values of a variable.  The `units` updates in `utils.convert`
are Python f-string formattings `f"{val} * {units}"` and
`f"{units} + {val}"`; we keep them structurally. -/
inductive AttrVal where
  | str (s : String)
  | mulBy (val : Rat) (prev : AttrVal)
  | addBy (prev : AttrVal) (val : Rat)
deriving DecidableEq, Repr

/-- A dataset variable: its values and its attribute dictionary. -/
structure PyVar where
  values : List Rat
  attrs : List (String × AttrVal)
deriving DecidableEq, Repr

/-- A dataset, as the association of variable names to variables (xarray
guarantees the names are unique). -/
def PyDataset := List (String × PyVar)

/-- Update the `units` attribute if present, as
`if "units" in ds_c[v].attrs` (`utils.py` 983, 987). -/
def updateUnits (attrs : List (String × AttrVal)) (f : AttrVal → AttrVal) :
    List (String × AttrVal) :=
  if (attrs.lookup "units").isSome then
    attrs.map (fun p => if p.1 = "units" then (p.1, f p.2) else p)
  else attrs

/-- One `op, val` step of the inner loop of `utils.convert` (`utils.py`
980-988): two independent `if` tests for `multiply_by` and `add`; any other
operation name does nothing. -/
def convert_op (var : PyVar) (op : String) (val : Rat) : PyVar :=
  let var1 :=
    if op = "multiply_by" then
      { values := var.values.map (fun x => x * val)
        attrs := updateUnits var.attrs (fun u => .mulBy val u) }
    else var
  if op = "add" then
    { values := var1.values.map (fun x => x + val)
      attrs := updateUnits var1.attrs (fun u => .addBy u val) }
  else var1

/-- Apply all operations listed for one conversion entry to one variable. -/
def convert_var (var : PyVar) (ops : List (String × Rat)) : PyVar :=
  ops.foldl (fun v p => convert_op v p.1 p.2) var

/-- Replace the variable named `name` in place, leaving everything else
untouched (`ds_c[v] *= ...` mutates only that variable). -/
def updateVar (ds : PyDataset) (name : String) (f : PyVar → PyVar) : PyDataset :=
  ds.map (fun p => if p.1 = name then (p.1, f p.2) else p)

/-- `utils.convert` (`utils.py` 964-989): operating on a copy, each variable
named in the conversion dictionary and present in the dataset has its listed
operations applied; names absent from the dataset are skipped
(`if v in ds_c`). -/
def convert (ds : PyDataset) (conversion : List (String × List (String × Rat))) :
    PyDataset :=
  conversion.foldl
    (fun acc p =>
      if (acc.lookup p.1).isSome then updateVar acc p.1 (fun v => convert_var v p.2)
      else acc)
    ds

/-- Minimum of the values of `p20` kept within the climatological period
(`p20_period.min(dim)` at `utils.py` 511). -/
def climMin (p20 : List (Int × Rat)) (period : Int × Int) : Option Rat :=
  match (keep_period_ts p20 period).map Prod.snd with
  | [] => none
  | v :: vs => some (vs.foldl min v)

/-- Maximum of the values of `p20` kept within the climatological period
(`p20_period.max(dim)` at `utils.py` 512). -/
def climMax (p20 : List (Int × Rat)) (period : Int × Int) : Option Rat :=
  match (keep_period_ts p20 period).map Prod.snd with
  | [] => none
  | v :: vs => some (vs.foldl max v)

/-- `_estimate_drought_factor` inside `utils.calculate_ffdi` (`utils.py`
503-514): `D = -10 * (p20 - min) / (max - min) + 10` with `min`/`max` taken
over the climatological period only, applied elementwise to the whole input.
`none` models the NaN/inf results of an empty climatology or a zero
climatological range (division by zero in numpy). -/
def estimate_drought_factor (p20 : List (Int × Rat)) (clim_period : Int × Int) :
    Option (List (Int × Rat)) :=
  match climMin p20 clim_period, climMax p20 clim_period with
  | some mn, some mx =>
      if mx = mn then none
      else some (p20.map (fun e => (e.1, -10 * (e.2 - mn) / (mx - mn) + 10)))
  | _, _ => none

/-- The value of `T` at position `i` along the rolling dimension. -/
def tsVal (T : List (Int × Rat)) (i : Nat) : Option Rat :=
  (T.get? i).map Prod.snd

/-- Sum of a list of possibly-missing values: NaN-propagating, as numpy. -/
def osum (l : List (Option Rat)) : Option Rat :=
  l.foldr
    (fun a acc =>
      match a, acc with
      | some x, some s => some (x + s)
      | _, _ => none)
    (some 0)

/-- `T.rolling({dim: 3}, min_periods=3).mean().shift({dim: -2})` at
`utils.py` 605-607: at position `i` this is the mean of days `i`, `i+1`,
`i+2`, missing (NaN) when the window runs off the end of the series. -/
def T3d (T : List (Int × Rat)) (i : Nat) : Option Rat :=
  (osum [tsVal T i, tsVal T (i + 1), tsVal T (i + 2)]).map (fun s => s / 3)

/-- `T.rolling({dim: 30}, min_periods=30).mean().shift({dim: 1})` at
`utils.py` 608-610: at position `i` this is the mean of days `i-30` to `i-1`,
missing for the first 30 positions. -/
def T30d (T : List (Int × Rat)) (i : Nat) : Option Rat :=
  if i < 30 then none
  else (osum ((List.range 30).map (fun k => tsVal T (i - 30 + k)))).map
    (fun s => s / 30)

/-- NaN-propagating subtraction. -/
def osub (a b : Option Rat) : Option Rat :=
  match a, b with
  | some x, some y => some (x - y)
  | _, _ => none

/-- The EHF value at position `i` produced by `utils.calculate_EHF`
(`utils.py` 605-614):
`EHI_sig = T_3d - T_p95`, `EHI_accl = T_3d - T_30d`, and
`EHF = EHI_sig * EHI_accl.where(EHI_accl > 1, 1)`.  Note `where` replaces a
NaN `EHI_accl` by 1 as well (NaN compares `False`), and that the code does
NOT clamp `EHI_sig` at zero. -/
def EHF_at (T : List (Int × Rat)) (T_p95 : Option Rat) (i : Nat) : Option Rat :=
  let sig := osub (T3d T i) T_p95
  let accl := osub (T3d T i) (T30d T i)
  let factor : Rat :=
    match accl with
    | some a => if 1 < a then a else 1
    | none => 1
  sig.map (fun s => s * factor)

/-- `utils.calculate_EHF` (`utils.py` 543-621) on a daily time series.  The
95th-percentile threshold comes from a file (embedded as the file's contents
`T_p95_file`) or, failing that, is computed with
`calculate_percentile_thresholds(T, 0.95, T_p95_period, T_p95_dim,
frequency=None)`; when neither the file nor both the period and the dimension
are supplied, a `ValueError` is raised.  The result pairs each time stamp
with its (possibly missing) EHF value. -/
def calculate_EHF (T : List (Int × Rat)) (T_p95_file : Option Rat)
    (T_p95_period : Option (Int × Int)) (T_p95_dim : Option String) :
    Except PyError (List (Int × Option Rat)) :=
  let T_p95E : Except PyError (Option Rat) :=
    match T_p95_file with
    | some q => .ok (some q)
    | none =>
        match T_p95_period, T_p95_dim with
        | some period, some _ =>
            .ok (calculate_percentile_thresholds_ts T (95 / 100) period)
        | _, _ =>
            .error (.valueError
              ("Must provide either thresholds of the 95th percentile of temperature (T_p95) "
                ++ "or details of the climatological period and dimensions to use to calculate these "
                ++ "thresholds (T_p95_period and T_p95_dim)"))
  T_p95E.map (fun T_p95 =>
    (List.range T.length).map (fun i => ((T.getD i (0, 0)).1, EHF_at T T_p95 i)))

/-- `glob`-style pattern matching on characters: `*` matches any run of
non-separator characters, `?` any single non-separator character, everything
else itself. -/
def globMatch : List Char → List Char → Bool
  | [], [] => true
  | [], _ :: _ => false
  | '*' :: ps, [] => globMatch ps []
  | '*' :: ps, c :: cs =>
      globMatch ps (c :: cs) || (decide (c ≠ '/') && globMatch ('*' :: ps) cs)
  | '?' :: _, [] => false
  | '?' :: ps, c :: cs => decide (c ≠ '/') && globMatch ps cs
  | _ :: _, [] => false
  | p :: ps, c :: cs => p == c && globMatch ps cs
termination_by p s => p.length + s.length

/-- String comparison used by Python's `sorted` on paths, via `Ord String`. -/
def strLe (a b : String) : Bool :=
  compare a b ≠ Ordering.gt

/-- Insertion step for sorting strings. -/
def insertStr (x : String) : List String → List String
  | [] => [x]
  | y :: ys => if strLe x y then x :: y :: ys else y :: insertStr x ys

/-- Ascending sort of strings, modelling Python's `sorted`. -/
def sortStr (xs : List String) : List String :=
  xs.foldr insertStr []

/-- `sorted(glob.glob(pattern))` over an embedded filesystem: the sorted list
of existing paths matching the pattern. -/
def globSorted (fs : List String) (pattern : String) : List String :=
  sortStr (fs.filter (fun f => globMatch pattern.toList f.toList))

/-- Resolve the version directory of a CMIP6 path (`prepare_data.py` 186-193
and 416-423): with `version="latest"`, the last of the sorted `v????????`
directories, raising `ValueError` naming the path when there is none;
otherwise the literal version is appended. -/
def resolveVersion (fs : List String) (version : String) (path : String) :
    Except PyError String :=
  if version = "latest" then
    if globSorted fs (path ++ "/v????????") = [] then
      .error (.valueError ("No versions found for " ++ path))
    else .ok ((globSorted fs (path ++ "/v????????")).getLastD "")
  else .ok (path ++ "/" ++ version)

/-- Look up the files matching a file pattern under a resolved path
(`prepare_data.py` 195-202 and 424-431): `ValueError` naming the path and
pattern when none match. -/
def lookupFiles (fs : List String) (path : String) (file_pattern : String) :
    Except PyError (List String) :=
  if globSorted fs (path ++ "/" ++ file_pattern) = [] then
    .error (.valueError ("No files found for " ++ path ++ "/" ++ file_pattern))
  else .ok (globSorted fs (path ++ "/" ++ file_pattern))

/-- The directory searched by `_dcpp_file` for start year `y`, member `m` and
variable `v` (`prepare_data.py` 185). -/
def dcpp_path (data_dir model variant_id grid realm : String) (y m v : String) :
    String :=
  data_dir ++ "/" ++ model ++ "/s" ++ y ++ "-r" ++ m ++ variant_id
    ++ "/" ++ realm ++ "/" ++ v ++ "/" ++ grid

/-- The file pattern searched by `_dcpp_file` (`prepare_data.py` 195-197). -/
def dcpp_pattern (model variant_id grid realm : String) (y m v : String) :
    String :=
  v ++ "_" ++ realm ++ "_" ++ model ++ "_dcppA-hindcast_s" ++ y ++ "-r" ++ m
    ++ variant_id ++ "_" ++ grid ++ "_*.nc"

/-- `_dcpp_file` inside `_open._cmip6_dcppA_hindcast` (`prepare_data.py`
184-202), for start year `y`, member `m` and variable `v`. -/
def dcpp_file (fs : List String)
    (data_dir model variant_id grid realm version : String)
    (y m v : String) : Except PyError (List String) :=
  (resolveVersion fs version (dcpp_path data_dir model variant_id grid realm y m v)).bind
    (fun path2 => lookupFiles fs path2 (dcpp_pattern model variant_id grid realm y m v))

/-- The dataset directory name `_cmip_files` derives from the experiment
(`prepare_data.py` 408-413): `ValueError` for an unknown experiment. -/
def cmip_dataset (model experiment : String) : Except PyError String :=
  if experiment = "historical" then .ok (model ++ "_hist")
  else if experiment = "piControl" then .ok (model ++ "_ctrl")
  else .error (.valueError "I'm not sure I can open this experiment type")

/-- The directory searched by `_cmip_files` for member `m` and variable `v`
(`prepare_data.py` 415). -/
def cmip_path (data_dir dataset variant_id grid realm : String) (m v : String) :
    String :=
  data_dir ++ "/" ++ dataset ++ "/r" ++ m ++ variant_id ++ "/"
    ++ realm ++ "/" ++ v ++ "/" ++ grid

/-- The file pattern searched by `_cmip_files` (`prepare_data.py` 424-426). -/
def cmip_pattern (model experiment variant_id grid realm : String) (m v : String) :
    String :=
  v ++ "_" ++ realm ++ "_" ++ model ++ "_" ++ experiment ++ "_r" ++ m
    ++ variant_id ++ "_" ++ grid ++ "_*.nc"

/-- `_cmip_files` inside `_open._cmip6` (`prepare_data.py` 405-431), for
member `m` and variable `v`. -/
def cmip_files (fs : List String)
    (data_dir model experiment variant_id grid realm version : String)
    (m v : String) : Except PyError (List String) :=
  (cmip_dataset model experiment).bind (fun dataset =>
    (resolveVersion fs version (cmip_path data_dir dataset variant_id grid realm m v)).bind
      (fun path2 =>
        lookupFiles fs path2 (cmip_pattern model experiment variant_id grid realm m v)))

/-- `np.array_equiv` on two one-dimensional arrays of the same role:
elementwise equality (broadcasting is not at play for matching coordinates of
equal length). -/
def array_equiv (a b : List Rat) : Bool :=
  a == b

/-- `np.isclose`-style closeness with `atol=0`, `rtol` as given, applied to
every element pair (`numpy.testing.assert_allclose(actual, desired,
rtol=1e-06)` passes iff `|actual - desired| <= rtol * |desired|` everywhere,
with matching shapes). -/
def allclose (actual desired : List Rat) (rtol : Rat) : Bool :=
  actual.length == desired.length &&
    (actual.zip desired).all (fun p => decide (|p.1 - p.2| ≤ rtol * |p.2|))

/-- One iteration of the grid-consistency loop (`prepare_data.py` 322-331):
a coordinate of the area file absent from the dataset is kept; a shared
coordinate that is elementwise equivalent is kept; one that is merely close
to relative tolerance 1e-06 is replaced by the dataset's; anything else makes
`numpy.testing.assert_allclose` raise an `AssertionError`. -/
def check_area_step (dsCoords : List (String × List Rat))
    (acc : Except PyError (List (String × List Rat))) (c : String × List Rat) :
    Except PyError (List (String × List Rat)) :=
  acc.bind (fun area =>
    (dsCoords.lookup c.1).elim (.ok (area ++ [c])) (fun dv =>
      if array_equiv dv c.2 then .ok (area ++ [c])
      else if allclose dv c.2 (1 / 1000000) then .ok (area ++ [(c.1, dv)])
      else .error .assertionError))

/-- The grid-consistency check shared by `_open.EC_Earth3`,
`_open.EC_Earth3_hist` and `_open.EC_Earth3_ctrl` (`prepare_data.py` 322-331,
563-572, 601-610): every coordinate of the cell-area file also present in
the dataset must be elementwise equivalent or close to relative tolerance
1e-06.  Returns the adjusted area coordinates. -/
def check_area_coords (dsCoords : List (String × List Rat))
    (areaCoords : List (String × List Rat)) :
    Except PyError (List (String × List Rat)) :=
  areaCoords.foldl (check_area_step dsCoords) (.ok [])

/-- The open methods of the `_open` class of `prepare_data.py`: the result of
`[m for m in dir(_open) if callable(getattr(_open, m)) and "__" not in m]`
restricted to the methods the class defines (`dir` also surfaces metaclass
callables such as `mro`, immaterial here), in `dir`'s sorted order. -/
def openMethods : List String :=
  ["AGCD", "CAFE60v1", "CAFE_hist", "CAFEf5", "CAFEf6", "CanESM5",
    "CanESM5_ctrl", "CanESM5_hist", "EC_Earth3", "EC_Earth3_ctrl",
    "EC_Earth3_hist", "EN422", "GPCP", "HadGEM3", "HadISST", "JRA55",
    "_cmip6", "_cmip6_dcppA_hindcast"]

/-- Python's `f"{methods}"` rendering of a list of strings. -/
def pyListRepr (l : List String) : String :=
  "[" ++ String.intercalate ", " (l.map (fun s => "'" ++ s ++ "'")) ++ "]"

/-- The message of the `ValueError` raised when the config has no `name`
entry (`prepare_data.py` 723-726). -/
def noNameMsg : String :=
  "Please provide an entry for 'name' in the config file so that I know how to open the data. Available options are "
    ++ pyListRepr openMethods

/-- The message of the `ValueError` raised when the `name` entry matches no
open method (`prepare_data.py` 759-762). -/
def unknownNameMsg (name : String) : String :=
  "There is no method available to open '" ++ name
    ++ "'. Please ensure that the 'name' entry in the config file matches an existing method in src.data._open, or add a new method for this data. Available methods are "
    ++ pyListRepr openMethods

/-- The message of the `ValueError` raised when the config has no `prepare`
section (`prepare_data.py` 779). -/
def noPrepareMsg : String :=
  "No variables were specified to prepare"

/-- The parameters of one identifier under the config's `prepare` section:
its `uses` entries (realm, which may be `None`, mapped to variable names,
after the list form is normalised to `{None: variables}`), and whether
`preprocess` and `apply` sections are present. -/
structure PrepareParams where
  uses : List (Option String × List String)
  hasPreprocess : Bool
  hasApply : Bool
deriving DecidableEq, Repr

/-- A parsed config file, as far as `prepare_dataset` inspects it. -/
structure Config where
  name : Option String
  prepare : Option (List (String × PrepareParams))
deriving DecidableEq, Repr

/-- The dataset terms `prepare_dataset` builds; the array contents are
delegated to xarray and kept symbolic. -/
inductive PDataset where
  | openedZarr (path : String)
  | openedData (method : String) (realm : Option String) (vars : List String)
      (preprocessed : Bool)
  | pmerge (ls : List PDataset)
  | papplied (ds : PDataset)

/-- A Zarr store write: target path and mode (`"w"` = overwrite). -/
abbrev ZarrWrite := String × String

/-- One `uses` entry of the per-identifier loop (`prepare_data.py` 744-762):
realm `"prepared"` merges previously prepared stores from `save_dir`; any
other realm dispatches on `hasattr(_open, name)`, raising `ValueError` for an
unknown name.  Opening and merging succeed symbolically (their failure modes
live in xarray, outside this embedding). -/
def prepare_use_step (name save_dir : String) (hasPre : Bool)
    (acc : Except PyError (List PDataset)) (u : Option String × List String) :
    Except PyError (List PDataset) :=
  acc.bind (fun l =>
    if u.1 = some "prepared" then
      .ok (l ++ [PDataset.pmerge (u.2.map (fun v =>
        PDataset.openedZarr (save_dir ++ "/" ++ name ++ "." ++ v ++ ".zarr")))])
    else if openMethods.contains name then
      .ok (l ++ [PDataset.openedData name u.1 u.2 hasPre])
    else .error (.valueError (unknownNameMsg name)))

/-- Prepare one identifier (`prepare_data.py` 731-766): process the `uses`
entries in order, merge the results, and apply the `apply` section when
present. -/
def prepare_one (name save_dir : String) (params : PrepareParams) :
    Except PyError PDataset :=
  (params.uses.foldl (prepare_use_step name save_dir params.hasPreprocess)
      (.ok [])).map
    (fun l => if params.hasApply then .papplied (.pmerge l) else .pmerge l)

/-- The loop over the identifiers of the `prepare` section
(`prepare_data.py` 728-776), accumulating the Zarr writes performed (one per
identifier when `save` is set, at `{save_dir}/{name}.{identifier}.zarr` with
mode `"w"`) and the list of prepared datasets, aborting on the first error
with the writes made so far. -/
def prepare_loop (name save_dir : String) (save : Bool) :
    List (String × PrepareParams) → List ZarrWrite × Except PyError (List PDataset)
  | [] => ([], .ok [])
  | (identifier, params) :: rest =>
      match prepare_one name save_dir params with
      | .error e => ([], .error e)
      | .ok ds =>
          let w : List ZarrWrite :=
            if save then [(save_dir ++ "/" ++ name ++ "." ++ identifier ++ ".zarr", "w")]
            else []
          let r := prepare_loop name save_dir save rest
          (w ++ r.1, r.2.map (fun l => ds :: l))

/-- `prepare_dataset` (`prepare_data.py` 696-779): a missing `name` entry and
a missing `prepare` section each raise `ValueError` (the `name` check comes
first); otherwise the identifiers are prepared in config order. -/
def prepare_dataset (cfg : Config) (save_dir : String) (save : Bool) :
    List ZarrWrite × Except PyError (List PDataset) :=
  match cfg.name with
  | none => ([], .error (.valueError noNameMsg))
  | some name =>
      match cfg.prepare with
      | some l => prepare_loop name save_dir save l
      | none => ([], .error (.valueError noPrepareMsg))

/-- Whether an `Except` result is a success. -/
def exceptOk {ε α : Type} : Except ε α → Bool
  | .ok _ => true
  | .error _ => false

/-- Whether an `Except` result is a raised `ValueError`. -/
def raisesValueError {α : Type} : Except PyError α → Bool
  | .error (.valueError _) => true
  | _ => false

/-- Whether an `Except` result is a raised `AssertionError`. -/
def raisesAssertion {α : Type} : Except PyError α → Bool
  | .error .assertionError => true
  | _ => false

/-- A constant daily-mean temperature series: 33 days at 0 degrees, the
failing input for the Excess Heat Factor claim. -/
def TC1 : List (Int × Rat) :=
  (List.range 33).map (fun i => ((i : Int), 0))

/-! ## Theorems -/

section Proofs

attribute [local semireducible] Rat.mul Rat.inv Rat.add Rat.sub Rat.ofScientific

theorem foldl_compose_apply {α : Type} (fs : List (α → α)) (g : α → α) (x : α) :
    List.foldl compose g fs x = applyInOrder fs (g x) := by
  induction fs generalizing g x with
  | nil => rfl
  | cons f fs ih =>
      simp only [List.foldl, applyInOrder]
      rw [ih]
      rfl

/-- C7: `composite_function` composes the configured functions in listed
order: the first-listed function is applied first (the composite maps `x` to
`fn_k(...fn_2(fn_1(x))...)`), and the empty dictionary yields the
identity. -/
theorem composite_function_applies_in_order {α K : Type}
    (function_dict : List (String × Option K)) (emptyKw : K)
    (lookup : String → K → α → α) (x : α) :
    composite_function function_dict emptyKw lookup x =
      applyInOrder (function_dict.map (fun p => lookup p.1 (p.2.getD emptyKw))) x ∧
    composite_function ([] : List (String × Option K)) emptyKw lookup x = x := by
  refine ⟨?_, rfl⟩
  have h := foldl_compose_apply
    (function_dict.map (fun p => lookup p.1 (p.2.getD emptyKw))) id x
  simpa [composite_function, composite] using h

/-- C8: `keep_period` retains the period, not its complement (despite its
docstring): on a time series it returns exactly the entries whose time lies
within `start..end` inclusive; on forecast data every surviving entry carries
its original value masked by the two-dimensional time coordinate with the
same inclusive bounds; on any other layout it raises a `ValueError`. -/
theorem keep_period_keeps_inclusive_period (period : Int × Int) :
    (∀ (entries kept : List (Int × Rat)),
      keep_period (.timeseries entries) period = .ok (.timeseries kept) →
      ∀ e : Int × Rat,
        (e ∈ kept ↔ (e ∈ entries ∧ period.1 ≤ e.1 ∧ e.1 ≤ period.2))) ∧
    (∀ (entries : List (Int × Int × Int × Rat))
        (kept : List (Int × Int × Int × Option Rat)),
      keep_period (.forecast entries) period = .ok (.forecast kept) →
      ∀ i l t ov, (i, l, t, ov) ∈ kept →
        ∃ v, (i, l, t, v) ∈ entries ∧
          ov = if period.1 ≤ t ∧ t ≤ period.2 then some v else none) ∧
    (keep_period .other period
      = .error (.valueError "I don't know how to mask the time period for this data")) := by
  refine ⟨?_, ?_, rfl⟩
  · intro entries kept hk e
    simp only [keep_period, Except.ok.injEq, XKept.timeseries.injEq] at hk
    subst hk
    simp [keep_period_ts, List.mem_filter]
  · intro entries kept hk i l t ov hmem
    simp only [keep_period, Except.ok.injEq, XKept.forecast.injEq] at hk
    subst hk
    have hmask : (i, l, t, ov) ∈ fc_mask entries period := by
      have := (List.mem_filter.mp hmem).1
      exact this
    simp only [fc_mask, List.mem_map] at hmask
    obtain ⟨e, he, heq⟩ := hmask
    refine ⟨e.2.2.2, ?_, ?_⟩
    · have h1 : e.1 = i := congrArg Prod.fst heq
      have h2 : e.2.1 = l := congrArg (fun p => p.2.1) heq
      have h3 : e.2.2.1 = t := congrArg (fun p => p.2.2.1) heq
      have : e = (i, l, t, e.2.2.2) := by
        obtain ⟨a, b, c, d⟩ := e
        simp only at h1 h2 h3
        simp [h1, h2, h3]
      rw [← this]
      exact he
    · have h3 : e.2.2.1 = t := congrArg (fun p => p.2.2.1) heq
      have h4 : (if period.1 ≤ e.2.2.1 ∧ e.2.2.1 ≤ period.2
          then some e.2.2.2 else none) = ov := congrArg (fun p => p.2.2.2) heq
      rw [← h4, h3]

/-- Witness for C8 at a concrete time series and period. -/
theorem keep_period_keeps_inclusive_period_witness :
    ((0, 1) ∈ [((0 : Int), (1 : Rat))] ↔
      ((0, 1) ∈ [((0 : Int), (1 : Rat)), (5, 2)] ∧ (0 : Int) ≤ 0 ∧ (0 : Int) ≤ 1)) :=
  (keep_period_keeps_inclusive_period (0, 1)).1
    [((0 : Int), (1 : Rat)), (5, 2)] [((0 : Int), (1 : Rat))] (by rfl) (0, 1)

/-- C9: at every element, `over_percentile_threshold` and
`under_percentile_threshold` (computed against the same thresholds) are never
both `True`, and an element exactly equal to its percentile threshold is
reported neither over nor under: both comparisons are strict. -/
theorem over_under_strict_and_exclusive (ds : List (Int × Rat)) (percentile : Rat)
    (period : Int × Int) (freq : Option (Int → Nat)) (i : Nat)
    (e : Int × Rat) (eo eu : Int × Bool)
    (he : ds[i]? = some e)
    (ho : (over_percentile_threshold ds percentile period freq)[i]? = some eo)
    (hu : (under_percentile_threshold ds percentile period freq)[i]? = some eu) :
    (eo.2 && eu.2) = false ∧
    (threshold_at ds percentile period freq e.1 = some e.2 →
      eo.2 = false ∧ eu.2 = false) := by
  rw [over_percentile_threshold, List.getElem?_map, he] at ho
  rw [under_percentile_threshold, List.getElem?_map, he] at hu
  have ho' : eo = (e.1,
      match threshold_at ds percentile period freq e.1 with
      | some c => decide (c < e.2)
      | none => false) := by
    simpa using ho.symm
  have hu' : eu = (e.1,
      match threshold_at ds percentile period freq e.1 with
      | some c => decide (e.2 < c)
      | none => false) := by
    simpa using hu.symm
  rcases hth : threshold_at ds percentile period freq e.1 with _ | c
  · simp only [hth] at ho' hu'
    subst ho' hu'
    simp
  · simp only [hth] at ho' hu'
    subst ho' hu'
    refine ⟨?_, ?_⟩
    · simp only [Bool.and_eq_false_iff, decide_eq_false_iff_not, not_lt]
      rcases lt_or_le c e.2 with h | h
      · right
        exact le_of_lt h
      · left
        exact h
    · intro h
      have hc : c = e.2 := (Option.some.injEq _ _).mp h
      subst hc
      simp

/-- Witness for C9 at a one-element series whose value equals its own 50th
percentile: neither over nor under. -/
theorem over_under_strict_and_exclusive_witness :
    ((false && false) = false ∧
      (threshold_at [((0 : Int), (1 : Rat))] (1 / 2) (0, 0) none (0 : Int) = some 1 →
        (((0 : Int), false) : Int × Bool).2 = false ∧
          (((0 : Int), false) : Int × Bool).2 = false)) := by
  have h := over_under_strict_and_exclusive [((0 : Int), (1 : Rat))] (1 / 2) (0, 0)
    none 0 (0, 1) (0, false) (0, false) (by decide) (by decide) (by decide)
  exact h

theorem lookup_updateVar_self (ds : PyDataset) (name : String) (f : PyVar → PyVar) :
    (updateVar ds name f).lookup name = (ds.lookup name).map f := by
  induction ds with
  | nil => rfl
  | cons a t ih =>
      obtain ⟨k, v⟩ := a
      simp only [updateVar, List.map_cons] at ih ⊢
      by_cases hk : k = name
      · subst hk
        simp [List.lookup_cons]
      · have hnk : name ≠ k := fun h => hk h.symm
        simp [List.lookup_cons, hk, beq_false_of_ne hnk, ih]

theorem lookup_updateVar_ne (ds : PyDataset) (name m : String) (f : PyVar → PyVar)
    (h : m ≠ name) :
    (updateVar ds name f).lookup m = ds.lookup m := by
  induction ds with
  | nil => rfl
  | cons a t ih =>
      obtain ⟨k, v⟩ := a
      simp only [updateVar, List.map_cons] at ih ⊢
      by_cases hm : m = k
      · subst hm
        have hk : ¬(m = name) := h
        simp [List.lookup_cons, hk]
      · by_cases hk : k = name <;>
          simp [List.lookup_cons, hk, beq_false_of_ne hm, beq_false_of_ne h, ih]

theorem updateVar_keys (ds : PyDataset) (name : String) (f : PyVar → PyVar) :
    (updateVar ds name f).map Prod.fst = ds.map Prod.fst := by
  induction ds with
  | nil => rfl
  | cons a t ih =>
      by_cases h : a.1 = name <;> simp [updateVar, h] at * <;> exact ih

theorem convert_cons (ds : PyDataset) (c : String × List (String × Rat))
    (t : List (String × List (String × Rat))) :
    convert ds (c :: t)
      = convert
          (if (ds.lookup c.1).isSome then
            updateVar ds c.1 (fun v => convert_var v c.2)
          else ds) t := rfl

theorem convert_keys (conversion : List (String × List (String × Rat)))
    (ds : PyDataset) :
    (convert ds conversion).map Prod.fst = ds.map Prod.fst := by
  induction conversion generalizing ds with
  | nil => rfl
  | cons c t ih =>
      rw [convert_cons]
      rcases h : (ds.lookup c.1).isSome with _ | _
      · simpa [h] using ih ds
      · simp only [h, if_pos]
        rw [ih]
        exact updateVar_keys ds c.1 _

theorem convert_op_other (var : PyVar) (op : String) (val : Rat)
    (h1 : op ≠ "multiply_by") (h2 : op ≠ "add") : convert_op var op val = var := by
  simp [convert_op, h1, h2]

theorem convert_var_inert (ops : List (String × Rat)) (var : PyVar)
    (h : ∀ p ∈ ops, p.1 ≠ "multiply_by" ∧ p.1 ≠ "add") :
    convert_var var ops = var := by
  induction ops generalizing var with
  | nil => rfl
  | cons p t ih =>
      have hp := h p (List.mem_cons_self p t)
      have : convert_var var (p :: t) = convert_var (convert_op var p.1 p.2) t := rfl
      rw [this, convert_op_other var p.1 p.2 hp.1 hp.2]
      exact ih var (fun q hq => h q (List.mem_cons_of_mem p hq))

theorem lookup_map_units (attrs : List (String × AttrVal)) (f : AttrVal → AttrVal)
    (a : String) (ha : a ≠ "units") :
    (attrs.map (fun p => if p.1 = "units" then (p.1, f p.2) else p)).lookup a
      = attrs.lookup a := by
  induction attrs with
  | nil => rfl
  | cons p t ih =>
      by_cases hp : p.1 = "units"
      · have hap : a ≠ p.1 := by rw [hp]; exact ha
        obtain ⟨k, v⟩ := p
        simp only at hp
        subst hp
        simp [List.lookup_cons, beq_false_of_ne hap, ih]
      · by_cases hap : a = p.1
        · obtain ⟨k, v⟩ := p
          simp only at hp hap
          subst hap
          simp [List.lookup_cons, hp]
        · obtain ⟨k, v⟩ := p
          simp only at hp hap
          simp [List.lookup_cons, hp, beq_false_of_ne hap, ih]

theorem lookup_updateUnits (attrs : List (String × AttrVal)) (f : AttrVal → AttrVal)
    (a : String) (ha : a ≠ "units") :
    (updateUnits attrs f).lookup a = attrs.lookup a := by
  unfold updateUnits
  rcases h : (attrs.lookup "units").isSome with _ | _
  · simp [h]
  · simp [h, lookup_map_units attrs f a ha]

theorem convert_op_attrs (var : PyVar) (op : String) (val : Rat) (a : String)
    (ha : a ≠ "units") :
    (convert_op var op val).attrs.lookup a = var.attrs.lookup a := by
  unfold convert_op
  by_cases h1 : op = "multiply_by" <;> by_cases h2 : op = "add" <;>
    simp [h1, h2, lookup_updateUnits _ _ _ ha]

theorem convert_var_attrs (ops : List (String × Rat)) (var : PyVar) (a : String)
    (ha : a ≠ "units") :
    (convert_var var ops).attrs.lookup a = var.attrs.lookup a := by
  induction ops generalizing var with
  | nil => rfl
  | cons p t ih =>
      have : convert_var var (p :: t) = convert_var (convert_op var p.1 p.2) t := rfl
      rw [this, ih, convert_op_attrs var p.1 p.2 a ha]

theorem convert_lookup_notin (conversion : List (String × List (String × Rat)))
    (ds : PyDataset) (name : String)
    (h : ∀ c ∈ conversion, c.1 ≠ name) :
    (convert ds conversion).lookup name = ds.lookup name := by
  induction conversion generalizing ds with
  | nil => rfl
  | cons c t ih =>
      rw [convert_cons]
      have hc := h c (List.mem_cons_self c t)
      have ht := fun q hq => h q (List.mem_cons_of_mem c hq)
      rcases hs : (ds.lookup c.1).isSome with _ | _
      · simpa [hs] using ih ds ht
      · simp only [hs, if_pos]
        rw [ih _ ht, lookup_updateVar_ne _ _ _ _ (fun hn => hc hn.symm)]

theorem convert_lookup_inert (conversion : List (String × List (String × Rat)))
    (ds : PyDataset) (name : String)
    (h : ∀ c ∈ conversion, c.1 = name →
      ∀ p ∈ c.2, p.1 ≠ "multiply_by" ∧ p.1 ≠ "add") :
    (convert ds conversion).lookup name = ds.lookup name := by
  induction conversion generalizing ds with
  | nil => rfl
  | cons c t ih =>
      rw [convert_cons]
      have ht : ∀ q ∈ t, q.1 = name →
          ∀ p ∈ q.2, p.1 ≠ "multiply_by" ∧ p.1 ≠ "add" :=
        fun q hq => h q (List.mem_cons_of_mem c hq)
      rcases hs : (ds.lookup c.1).isSome with _ | _
      · simpa [hs] using ih ds ht
      · simp only [hs, if_pos]
        rw [ih _ ht]
        by_cases hn : name = c.1
        · have hops := h c (List.mem_cons_self c t) hn.symm
          rw [← hn, lookup_updateVar_self]
          rcases hv : ds.lookup name with _ | v
          · simp
          · simp [convert_var_inert c.2 v hops]
        · exact lookup_updateVar_ne _ _ _ _ hn

theorem convert_lookup_attrs (conversion : List (String × List (String × Rat)))
    (ds : PyDataset) (name a : String) (ha : a ≠ "units") :
    ((convert ds conversion).lookup name).map (fun v => v.attrs.lookup a)
      = (ds.lookup name).map (fun v => v.attrs.lookup a) := by
  induction conversion generalizing ds with
  | nil => rfl
  | cons c t ih =>
      rw [convert_cons]
      rcases hs : (ds.lookup c.1).isSome with _ | _
      · simpa [hs] using ih ds
      · simp only [hs, if_pos]
        rw [ih]
        by_cases hn : name = c.1
        · rw [← hn, lookup_updateVar_self]
          rcases hv : ds.lookup name with _ | v
          · simp
          · simp [convert_var_attrs c.2 v a ha]
        · rw [lookup_updateVar_ne _ _ _ _ hn]

/-- C10: `convert` leaves everything outside the conversion dictionary
untouched: the set and order of variables is unchanged, a variable with no
entry in the dictionary keeps its value, a variable whose listed operations
are neither `multiply_by` nor `add` keeps its value, and attributes other
than `units` are preserved for every variable (only values and the `units`
attribute are ever altered); the function is pure, so the input dataset is
returned unmodified apart from the copy it builds. -/
theorem convert_frame (ds : PyDataset)
    (conversion : List (String × List (String × Rat))) (name a : String) :
    ((convert ds conversion).map Prod.fst = ds.map Prod.fst) ∧
    ((∀ c ∈ conversion, c.1 ≠ name) →
      (convert ds conversion).lookup name = ds.lookup name) ∧
    ((∀ c ∈ conversion, c.1 = name →
        ∀ p ∈ c.2, p.1 ≠ "multiply_by" ∧ p.1 ≠ "add") →
      (convert ds conversion).lookup name = ds.lookup name) ∧
    (a ≠ "units" →
      ((convert ds conversion).lookup name).map (fun v => v.attrs.lookup a)
        = (ds.lookup name).map (fun v => v.attrs.lookup a)) :=
  ⟨convert_keys conversion ds,
    fun h => convert_lookup_notin conversion ds name h,
    fun h => convert_lookup_inert conversion ds name h,
    fun ha => convert_lookup_attrs conversion ds name a ha⟩

/-- Concrete dataset for the C10 witness. -/
def convDs : PyDataset :=
  [("t", ⟨[1], [("units", .str "K"), ("long_name", .str "temperature")]⟩)]

/-- Concrete conversion dictionary for the C10 witness. -/
def convConv : List (String × List (String × Rat)) :=
  [("q", [("multiply_by", 2)]), ("t", [("noop", 3)])]

/-- Witness for C10 at a concrete dataset and conversion dictionary. -/
theorem convert_frame_witness :
    (convert convDs convConv).map Prod.fst = convDs.map Prod.fst ∧
    (convert convDs convConv).lookup "u" = convDs.lookup "u" ∧
    (convert convDs convConv).lookup "t" = convDs.lookup "t" ∧
    ((convert convDs convConv).lookup "t").map (fun v => v.attrs.lookup "long_name")
      = (convDs.lookup "t").map (fun v => v.attrs.lookup "long_name") := by
  have h1 := convert_frame convDs convConv "u" "long_name"
  have h2 := convert_frame convDs convConv "t" "long_name"
  exact ⟨h1.1, h1.2.1 (by decide), h2.2.2.1 (by decide), h2.2.2.2 (by decide)⟩

theorem foldl_min_le_start (l : List Rat) (a : Rat) : l.foldl min a ≤ a := by
  induction l generalizing a with
  | nil => exact le_refl a
  | cons b t ih => exact le_trans (ih (min a b)) (min_le_left a b)

theorem foldl_min_le_mem (l : List Rat) (a x : Rat) (hx : x ∈ l) :
    l.foldl min a ≤ x := by
  induction l generalizing a with
  | nil => cases hx
  | cons b t ih =>
      rcases List.mem_cons.mp hx with h | h
      · subst h
        exact le_trans (foldl_min_le_start t (min a x)) (min_le_right a x)
      · exact ih (min a b) h

theorem le_foldl_max_start (l : List Rat) (a : Rat) : a ≤ l.foldl max a := by
  induction l generalizing a with
  | nil => exact le_refl a
  | cons b t ih => exact le_trans (le_max_left a b) (ih (max a b))

theorem le_foldl_max_mem (l : List Rat) (a x : Rat) (hx : x ∈ l) :
    x ≤ l.foldl max a := by
  induction l generalizing a with
  | nil => cases hx
  | cons b t ih =>
      rcases List.mem_cons.mp hx with h | h
      · subst h
        exact le_trans (le_max_right a x) (le_foldl_max_start t (max a x))
      · exact ih (max a b) h

theorem climMin_le_kept (p20 : List (Int × Rat)) (period : Int × Int) (mn : Rat)
    (hmn : climMin p20 period = some mn) (x : Rat)
    (hx : x ∈ (keep_period_ts p20 period).map Prod.snd) : mn ≤ x := by
  unfold climMin at hmn
  rcases hk : (keep_period_ts p20 period).map Prod.snd with _ | ⟨v, vs⟩
  · rw [hk] at hmn
    cases hmn
  · rw [hk] at hmn hx
    have : vs.foldl min v = mn := (Option.some.injEq _ _).mp hmn
    subst this
    rcases List.mem_cons.mp hx with h | h
    · subst h
      exact foldl_min_le_start vs x
    · exact foldl_min_le_mem vs v x h

theorem kept_le_climMax (p20 : List (Int × Rat)) (period : Int × Int) (mx : Rat)
    (hmx : climMax p20 period = some mx) (x : Rat)
    (hx : x ∈ (keep_period_ts p20 period).map Prod.snd) : x ≤ mx := by
  unfold climMax at hmx
  rcases hk : (keep_period_ts p20 period).map Prod.snd with _ | ⟨v, vs⟩
  · rw [hk] at hmx
    cases hmx
  · rw [hk] at hmx hx
    have : vs.foldl max v = mx := (Option.some.injEq _ _).mp hmx
    subst this
    rcases List.mem_cons.mp hx with h | h
    · subst h
      exact le_foldl_max_start vs x
    · exact le_foldl_max_mem vs v x h

theorem climMin_le_climMax (p20 : List (Int × Rat)) (period : Int × Int)
    (mn mx : Rat) (hmn : climMin p20 period = some mn)
    (hmx : climMax p20 period = some mx) : mn ≤ mx := by
  rcases hk : (keep_period_ts p20 period).map Prod.snd with _ | ⟨v, vs⟩
  · unfold climMin at hmn
    rw [hk] at hmn
    cases hmn
  · have hv : v ∈ (keep_period_ts p20 period).map Prod.snd := by
      rw [hk]
      exact List.mem_cons_self v vs
    exact le_trans (climMin_le_kept p20 period mn hmn v hv)
      (kept_le_climMax p20 period mx hmx v hv)

/-- C2 counterexample: `_estimate_drought_factor` scales only by the
climatological minimum and maximum, so an element outside the climatological
period whose 20-day rainfall exceeds the climatological maximum gets a
drought factor below 0: at `p20 = [(0,1),(1,2),(2,5)]` with climatological
period `[0,1]`, the element at time 2 gets `D = -30 ∉ [0,10]`. -/
theorem drought_factor_leaves_range :
    estimate_drought_factor [((0 : Int), (1 : Rat)), (1, 2), (2, 5)] (0, 1)
      = some [(0, 10), (1, 0), (2, -30)] ∧ ((-30 : Rat) < 0) := by decide

/-- C2 (amended): the drought factor follows the stated formula
`D = -10 * (p20 - min) / (max - min) + 10` elementwise, equals 10 at the
climatological minimum rainfall and 0 at the climatological maximum, and lies
in `[0, 10]` for every element whose 20-day rainfall lies between the
climatological minimum and maximum — in particular for every element inside
the climatological period; elements outside that range leave `[0, 10]`. -/
theorem drought_factor_formula_and_bounds
    (p20 : List (Int × Rat)) (clim_period : Int × Int)
    (D : List (Int × Rat)) (mn mx : Rat) (t : Int) (x : Rat)
    (hmn : climMin p20 clim_period = some mn)
    (hmx : climMax p20 clim_period = some mx)
    (hD : estimate_drought_factor p20 clim_period = some D)
    (hmem : (t, x) ∈ p20) :
    ((t, -10 * (x - mn) / (mx - mn) + 10) ∈ D) ∧
    (mn ≤ x → x ≤ mx →
      0 ≤ -10 * (x - mn) / (mx - mn) + 10 ∧
        -10 * (x - mn) / (mx - mn) + 10 ≤ 10) ∧
    (x = mn → -10 * (x - mn) / (mx - mn) + 10 = 10) ∧
    (x = mx → -10 * (x - mn) / (mx - mn) + 10 = 0) ∧
    (clim_period.1 ≤ t → t ≤ clim_period.2 → mn ≤ x ∧ x ≤ mx) := by
  unfold estimate_drought_factor at hD
  rw [hmn, hmx] at hD
  by_cases hne : mx = mn
  · simp [hne] at hD
  · simp only [hne, if_neg, Option.some.injEq, reduceIte] at hD
    have hlt : mn < mx :=
      lt_of_le_of_ne (climMin_le_climMax p20 clim_period mn mx hmn hmx)
        (fun h => hne h.symm)
    have hden : (0 : Rat) < mx - mn := sub_pos.mpr hlt
    have hden0 : mx - mn ≠ 0 := ne_of_gt hden
    refine ⟨?_, ?_, ?_, ?_, ?_⟩
    · rw [← hD]
      exact List.mem_map_of_mem _ hmem
    · intro h1 h2
      have key : -10 * (x - mn) / (mx - mn) + 10 = 10 * (mx - x) / (mx - mn) := by
        field_simp
        ring
      rw [key]
      constructor
      · exact div_nonneg (by linarith) (le_of_lt hden)
      · rw [div_le_iff₀ hden]
        linarith
    · intro h
      subst h
      simp
    · intro h
      subst h
      rw [mul_div_assoc, div_self hden0]
      ring
    · intro h1 h2
      have hkmem : (t, x) ∈ keep_period_ts p20 clim_period := by
        unfold keep_period_ts
        rw [List.mem_filter]
        exact ⟨hmem, by simp [h1, h2]⟩
      have hkept : x ∈ (keep_period_ts p20 clim_period).map Prod.snd :=
        List.mem_map_of_mem Prod.snd hkmem
      exact ⟨climMin_le_kept p20 clim_period mn hmn x hkept,
        kept_le_climMax p20 clim_period mx hmx x hkept⟩

/-- Witness for the amended C2 at a concrete rainfall series, at the element
sitting at the climatological minimum. -/
theorem drought_factor_formula_and_bounds_witness :
    (((0 : Int), -10 * ((1 : Rat) - 1) / (2 - 1) + 10)
        ∈ [((0 : Int), (10 : Rat)), (1, 0), (2, -30)]) ∧
    ((1 : Rat) ≤ 1 → (1 : Rat) ≤ 2 →
      0 ≤ -10 * ((1 : Rat) - 1) / (2 - 1) + 10 ∧
        -10 * ((1 : Rat) - 1) / (2 - 1) + 10 ≤ 10) ∧
    ((1 : Rat) = 1 → -10 * ((1 : Rat) - 1) / (2 - 1) + 10 = 10) ∧
    ((1 : Rat) = 2 → -10 * ((1 : Rat) - 1) / (2 - 1) + 10 = 0) ∧
    ((0 : Int) ≤ 0 → (0 : Int) ≤ 1 → (1 : Rat) ≤ 1 ∧ (1 : Rat) ≤ 2) :=
  drought_factor_formula_and_bounds
    [((0 : Int), (1 : Rat)), (1, 2), (2, 5)] (0, 1)
    [(0, 10), (1, 0), (2, -30)] 1 2 0 1
    (by decide) (by decide) (by decide) (by decide)

set_option maxRecDepth 4000

/-- C1: the code of `calculate_EHF` contradicts its own docstring: it
computes `EHF = EHI_sig * max(1, EHI_accl)` without the documented
`max(0, EHI_sig)` clamp, so the returned EHF can be negative.  At a constant
temperature series of 33 days at 0 degrees with a 95th-percentile file value
of 1, `EHI_sig = -1` and `EHI_accl = 0` at day 30, and the code returns
`EHF = -1 < 0` where the claim (and docstring) require `EHF ≥ 0`. -/
theorem calculate_EHF_returns_negative :
    (calculate_EHF TC1 (some 1) none none).toOption.bind
        (fun l => (l.getD 30 (0, none)).2) = some (-1) ∧
      ((-1 : Rat) < 0) := by decide

theorem check_area_foldl_error (dsCoords : List (String × List Rat))
    (e : PyError) (l : List (String × List Rat)) :
    l.foldl (check_area_step dsCoords) (.error e) = .error e := by
  induction l with
  | nil => rfl
  | cons hd tl ih =>
      have hstep : check_area_step dsCoords (.error e) hd = .error e := rfl
      simp only [List.foldl, hstep]
      exact ih

theorem check_area_step_ok (dsCoords : List (String × List Rat))
    (acc : List (String × List Rat)) (hd : String × List Rat) :
    check_area_step dsCoords (.ok acc) hd
      = (dsCoords.lookup hd.1).elim (.ok (acc ++ [hd])) (fun dv =>
          if array_equiv dv hd.2 then .ok (acc ++ [hd])
          else if allclose dv hd.2 (1 / 1000000) then .ok (acc ++ [(hd.1, dv)])
          else .error .assertionError) := rfl

theorem check_area_step_shape (dsCoords : List (String × List Rat))
    (acc : List (String × List Rat)) (hd : String × List Rat) :
    (∃ a, check_area_step dsCoords (.ok acc) hd = .ok a) ∨
      check_area_step dsCoords (.ok acc) hd = .error .assertionError := by
  rw [check_area_step_ok]
  rcases h : dsCoords.lookup hd.1 with _ | dv
  · exact .inl ⟨acc ++ [hd], by simp⟩
  · by_cases h1 : array_equiv dv hd.2 = true
    · exact .inl ⟨acc ++ [hd], by simp only [Option.elim_some]; rw [if_pos h1]⟩
    · by_cases h2 : allclose dv hd.2 (1 / 1000000) = true
      · exact .inl ⟨acc ++ [(hd.1, dv)], by
          simp only [Option.elim_some]
          rw [if_neg h1, if_pos h2]⟩
      · exact .inr (by
          simp only [Option.elim_some]
          rw [if_neg h1, if_neg h2])

theorem check_area_foldl_bad (dsCoords : List (String × List Rat))
    (l : List (String × List Rat)) :
    ∀ (acc : List (String × List Rat)) (c : String) (av dv : List Rat),
      (c, av) ∈ l → dsCoords.lookup c = some dv →
      array_equiv dv av = false → allclose dv av (1 / 1000000) = false →
      l.foldl (check_area_step dsCoords) (.ok acc) = .error .assertionError := by
  induction l with
  | nil =>
      intro acc c av dv hmem _ _ _
      cases hmem
  | cons hd tl ih =>
      intro acc c av dv hmem hds hneq hfar
      rcases List.mem_cons.mp hmem with hh | ht
      · have hneq' : ¬(array_equiv dv av = true) := by
          rw [hneq]
          exact Bool.false_ne_true
        have hfar' : ¬(allclose dv av (1 / 1000000) = true) := by
          rw [hfar]
          exact Bool.false_ne_true
        have hstep : check_area_step dsCoords (.ok acc) hd = .error .assertionError := by
          rw [← hh, check_area_step_ok]
          simp only [hds, Option.elim_some]
          rw [if_neg hneq', if_neg hfar']
        simp only [List.foldl, hstep]
        exact check_area_foldl_error dsCoords .assertionError tl
      · rcases check_area_step_shape dsCoords acc hd with ⟨a, ha⟩ | ha
        · simp only [List.foldl, ha]
          exact ih a c av dv ht hds hneq hfar
        · simp only [List.foldl, ha]
          exact check_area_foldl_error dsCoords .assertionError tl

/-- C3 counterexample: when the dataset's and the area file's `lat`
coordinates differ beyond relative tolerance 1e-06, the check raises an
`AssertionError` (from `numpy.testing.assert_allclose`), not a
`ValueError`. -/
theorem area_coords_mismatch_not_valueerror :
    raisesAssertion (check_area_coords [("lat", [(0 : Rat)])] [("lat", [(1 : Rat)])])
        = true ∧
      raisesValueError (check_area_coords [("lat", [(0 : Rat)])] [("lat", [(1 : Rat)])])
        = false := by
  decide

/-- C3 (amended): when a coordinate shared between an opened dataset and its
cell-area file is neither elementwise equivalent nor close to relative
tolerance 1e-06, the consistency check raises an `AssertionError` (the error
raised by `numpy.testing.assert_allclose`), not a `ValueError`. -/
theorem area_coords_mismatch_raises_assertion
    (dsCoords areaCoords : List (String × List Rat)) (c : String)
    (av dv : List Rat)
    (hmem : (c, av) ∈ areaCoords)
    (hds : dsCoords.lookup c = some dv)
    (hneq : array_equiv dv av = false)
    (hfar : allclose dv av (1 / 1000000) = false) :
    check_area_coords dsCoords areaCoords = .error .assertionError :=
  check_area_foldl_bad dsCoords areaCoords [] c av dv hmem hds hneq hfar

/-- Witness for the amended C3 at concrete mismatching `lat` coordinates. -/
theorem area_coords_mismatch_raises_assertion_witness :
    check_area_coords [("lat", [(0 : Rat)])] [("lat", [(1 : Rat)])]
      = .error .assertionError :=
  area_coords_mismatch_raises_assertion [("lat", [(0 : Rat)])]
    [("lat", [(1 : Rat)])] "lat" [1] [0] (by decide) (by decide) (by decide)
    (by decide)

theorem except_bind_ok {ε α β : Type} (a : α) (f : α → Except ε β) :
    (Except.ok a : Except ε α).bind f = f a := rfl

theorem except_bind_error {ε α β : Type} (e : ε) (f : α → Except ε β) :
    (Except.error e : Except ε α).bind f = .error e := rfl

/-- C5: when the file lookup for a CMIP6 dataset matches no files on disk —
no version directories under the searched path when `version="latest"`, or no
files matching the expected file pattern under the resolved path — both
`_dcpp_file` and `_cmip_files` raise a `ValueError` naming the missing path,
for every year, member and variable requested. -/
theorem missing_files_raise_valueerror (fs : List String)
    (data_dir model experiment variant_id grid realm version y m v
      dataset path2 : String) :
    (version = "latest" →
      globSorted fs
        (dcpp_path data_dir model variant_id grid realm y m v ++ "/v????????") = [] →
      dcpp_file fs data_dir model variant_id grid realm version y m v
        = .error (.valueError ("No versions found for "
            ++ dcpp_path data_dir model variant_id grid realm y m v))) ∧
    (resolveVersion fs version (dcpp_path data_dir model variant_id grid realm y m v)
        = .ok path2 →
      globSorted fs (path2 ++ "/" ++ dcpp_pattern model variant_id grid realm y m v)
        = [] →
      dcpp_file fs data_dir model variant_id grid realm version y m v
        = .error (.valueError ("No files found for " ++ path2 ++ "/"
            ++ dcpp_pattern model variant_id grid realm y m v))) ∧
    (cmip_dataset model experiment = .ok dataset →
      version = "latest" →
      globSorted fs
        (cmip_path data_dir dataset variant_id grid realm m v ++ "/v????????") = [] →
      cmip_files fs data_dir model experiment variant_id grid realm version m v
        = .error (.valueError ("No versions found for "
            ++ cmip_path data_dir dataset variant_id grid realm m v))) ∧
    (cmip_dataset model experiment = .ok dataset →
      resolveVersion fs version (cmip_path data_dir dataset variant_id grid realm m v)
        = .ok path2 →
      globSorted fs
        (path2 ++ "/" ++ cmip_pattern model experiment variant_id grid realm m v) = [] →
      cmip_files fs data_dir model experiment variant_id grid realm version m v
        = .error (.valueError ("No files found for " ++ path2 ++ "/"
            ++ cmip_pattern model experiment variant_id grid realm m v))) := by
  refine ⟨?_, ?_, ?_, ?_⟩
  · intro hv hg
    unfold dcpp_file resolveVersion
    rw [if_pos hv, if_pos hg, except_bind_error]
  · intro hr hg
    unfold dcpp_file
    rw [hr, except_bind_ok]
    unfold lookupFiles
    rw [if_pos hg]
  · intro hd hv hg
    unfold cmip_files
    rw [hd, except_bind_ok]
    unfold resolveVersion
    rw [if_pos hv, if_pos hg, except_bind_error]
  · intro hd hr hg
    unfold cmip_files
    rw [hd, except_bind_ok, hr, except_bind_ok]
    unfold lookupFiles
    rw [if_pos hg]

/-- Witness for C5 on an empty filesystem: both open helpers raise the
`ValueError` naming the searched path. -/
theorem missing_files_raise_valueerror_witness :
    dcpp_file [] "/d" "M" "i1p1f1" "gn" "Amon" "latest" "1960" "1" "tas"
        = .error (.valueError ("No versions found for "
            ++ dcpp_path "/d" "M" "i1p1f1" "gn" "Amon" "1960" "1" "tas")) ∧
      cmip_files [] "/d" "M" "historical" "i1p1f1" "gn" "Amon" "latest" "1" "tas"
        = .error (.valueError ("No versions found for "
            ++ cmip_path "/d" "M_hist" "i1p1f1" "gn" "Amon" "1" "tas")) := by
  have h := missing_files_raise_valueerror [] "/d" "M" "historical" "i1p1f1" "gn"
    "Amon" "latest" "1960" "1" "tas" "M_hist" ""
  exact ⟨h.1 rfl rfl, h.2.2.1 rfl rfl rfl⟩

theorem prepare_use_foldl_error (name save_dir : String) (hasPre : Bool)
    (e : PyError) (l : List (Option String × List String)) :
    l.foldl (prepare_use_step name save_dir hasPre) (.error e) = .error e := by
  induction l with
  | nil => rfl
  | cons hd tl ih =>
      have hstep : prepare_use_step name save_dir hasPre (.error e) hd = .error e := rfl
      simp only [List.foldl, hstep]
      exact ih

theorem prepare_use_step_acc (name save_dir : String) (hasPre : Bool)
    (acc : List PDataset) (u : Option String × List String) :
    prepare_use_step name save_dir hasPre (.ok acc) u
      = (if u.1 = some "prepared" then
          .ok (acc ++ [PDataset.pmerge (u.2.map (fun v =>
            PDataset.openedZarr (save_dir ++ "/" ++ name ++ "." ++ v ++ ".zarr")))])
        else if openMethods.contains name then
          .ok (acc ++ [PDataset.openedData name u.1 u.2 hasPre])
        else .error (.valueError (unknownNameMsg name))) := rfl

theorem prepare_use_step_shape (name save_dir : String) (hasPre : Bool)
    (acc : List PDataset) (u : Option String × List String) :
    (∃ a, prepare_use_step name save_dir hasPre (.ok acc) u = .ok a) ∨
      prepare_use_step name save_dir hasPre (.ok acc) u
        = .error (.valueError (unknownNameMsg name)) := by
  rw [prepare_use_step_acc]
  by_cases h1 : u.1 = some "prepared"
  · exact .inl ⟨_, by rw [if_pos h1]⟩
  · by_cases h2 : openMethods.contains name = true
    · exact .inl ⟨_, by rw [if_neg h1, if_pos h2]⟩
    · exact .inr (by rw [if_neg h1, if_neg h2])

theorem prepare_use_foldl_bad (name save_dir : String) (hasPre : Bool)
    (hname : openMethods.contains name = false) :
    ∀ (l : List (Option String × List String)) (acc : List PDataset)
      (u : Option String × List String), u ∈ l → u.1 ≠ some "prepared" →
      l.foldl (prepare_use_step name save_dir hasPre) (.ok acc)
        = .error (.valueError (unknownNameMsg name)) := by
  intro l
  induction l with
  | nil =>
      intro acc u hu
      cases hu
  | cons hd tl ih =>
      intro acc u hu hnp
      rcases List.mem_cons.mp hu with hh | ht
      · have hstep : prepare_use_step name save_dir hasPre (.ok acc) hd
            = .error (.valueError (unknownNameMsg name)) := by
          rw [← hh, prepare_use_step_acc, if_neg hnp,
            if_neg (by rw [hname]; exact Bool.false_ne_true)]
        simp only [List.foldl, hstep]
        exact prepare_use_foldl_error name save_dir hasPre _ tl
      · rcases prepare_use_step_shape name save_dir hasPre acc hd with ⟨a, ha⟩ | ha
        · simp only [List.foldl, ha]
          exact ih a u ht hnp
        · simp only [List.foldl, ha]
          exact prepare_use_foldl_error name save_dir hasPre _ tl

theorem prepare_one_unknown (name save_dir : String) (params : PrepareParams)
    (hname : openMethods.contains name = false) (u : Option String × List String)
    (hu : u ∈ params.uses) (hnp : u.1 ≠ some "prepared") :
    prepare_one name save_dir params = .error (.valueError (unknownNameMsg name)) := by
  unfold prepare_one
  rw [prepare_use_foldl_bad name save_dir params.hasPreprocess hname
    params.uses [] u hu hnp]
  rfl

theorem prepare_one_prepared_ok (name save_dir : String) (params : PrepareParams)
    (h : ∀ u ∈ params.uses, u.1 = some "prepared") :
    ∃ d, prepare_one name save_dir params = .ok d := by
  suffices hs : ∀ (l : List (Option String × List String)) (acc : List PDataset),
      (∀ u ∈ l, u.1 = some "prepared") →
      ∃ a, l.foldl (prepare_use_step name save_dir params.hasPreprocess) (.ok acc)
        = .ok a by
    obtain ⟨a, ha⟩ := hs params.uses [] h
    refine ⟨if params.hasApply then .papplied (.pmerge a) else .pmerge a, ?_⟩
    unfold prepare_one
    rw [ha]
    rfl
  intro l
  induction l with
  | nil =>
      intro acc _
      exact ⟨acc, rfl⟩
  | cons hd tl ih =>
      intro acc hall
      have hh := hall hd (List.mem_cons_self hd tl)
      have hstep : prepare_use_step name save_dir params.hasPreprocess (.ok acc) hd
          = .ok (acc ++ [PDataset.pmerge (hd.2.map (fun v =>
              PDataset.openedZarr (save_dir ++ "/" ++ name ++ "." ++ v ++ ".zarr")))]) := by
        rw [prepare_use_step_acc, if_pos hh]
      obtain ⟨a, ha⟩ := ih _ (fun u hu => hall u (List.mem_cons_of_mem hd hu))
      refine ⟨a, ?_⟩
      simp only [List.foldl, hstep]
      exact ha

theorem prepare_loop_cons (name save_dir : String) (save : Bool)
    (identifier : String) (params : PrepareParams)
    (rest : List (String × PrepareParams)) :
    prepare_loop name save_dir save ((identifier, params) :: rest)
      = (match prepare_one name save_dir params with
          | .error e => ([], .error e)
          | .ok ds =>
              ((if save then
                  [(save_dir ++ "/" ++ name ++ "." ++ identifier ++ ".zarr", "w")]
                else []) ++ (prepare_loop name save_dir save rest).1,
                (prepare_loop name save_dir save rest).2.map (fun l => ds :: l))) := rfl

theorem prepare_loop_unknown (name save_dir : String) (save : Bool)
    (hname : openMethods.contains name = false) :
    ∀ (l : List (String × PrepareParams)) (p : String × PrepareParams)
      (u : Option String × List String),
      p ∈ l → u ∈ p.2.uses → u.1 ≠ some "prepared" →
      (prepare_loop name save_dir save l).2
        = .error (.valueError (unknownNameMsg name)) := by
  intro l
  induction l with
  | nil =>
      intro p u hp
      cases hp
  | cons hd tl ih =>
      intro p u hp hu hnp
      obtain ⟨idf, params⟩ := hd
      by_cases hbad : ∃ u' ∈ params.uses, u'.1 ≠ some "prepared"
      · obtain ⟨u', hu', hnp'⟩ := hbad
        have hone := prepare_one_unknown name save_dir params hname u' hu' hnp'
        rw [prepare_loop_cons, hone]
      · have hall : ∀ u' ∈ params.uses, u'.1 = some "prepared" := by
          intro u' hu'
          by_contra hcon
          exact hbad ⟨u', hu', hcon⟩
        rcases List.mem_cons.mp hp with hph | hpt
        · subst hph
          exact absurd (hall u hu) hnp
        · obtain ⟨d, hone⟩ := prepare_one_prepared_ok name save_dir params hall
          rw [prepare_loop_cons, hone]
          show Except.map (fun l => d :: l) (prepare_loop name save_dir save tl).2
            = .error (.valueError (unknownNameMsg name))
          rw [ih p u hpt hu hnp]
          rfl

theorem prepare_loop_writes (name save_dir : String) :
    ∀ (l : List (String × PrepareParams)) (prepared : List PDataset),
      (prepare_loop name save_dir true l).2 = .ok prepared →
      (prepare_loop name save_dir true l).1
        = l.map (fun p => (save_dir ++ "/" ++ name ++ "." ++ p.1 ++ ".zarr", "w"))
        ∧ prepared.length = l.length := by
  intro l
  induction l with
  | nil =>
      intro prepared h
      have h' : (Except.ok [] : Except PyError (List PDataset)) = .ok prepared := h
      have : prepared = [] := ((Except.ok.injEq _ _).mp h').symm
      subst this
      exact ⟨rfl, rfl⟩
  | cons hd tl ih =>
      intro prepared h
      obtain ⟨idf, params⟩ := hd
      rcases hone : prepare_one name save_dir params with e | d
      · rw [prepare_loop_cons, hone] at h
        have h' : (Except.error e : Except PyError (List PDataset)) = .ok prepared := h
        cases h'
      · rw [prepare_loop_cons, hone] at h
        have h2 : Except.map (fun l => d :: l) (prepare_loop name save_dir true tl).2
            = .ok prepared := h
        rcases hr : (prepare_loop name save_dir true tl).2 with e' | tlp
        · rw [hr] at h2
          have h' : (Except.error e' : Except PyError (List PDataset)) = .ok prepared := h2
          cases h'
        · rw [hr] at h2
          have h' : (Except.ok (d :: tlp) : Except PyError (List PDataset))
              = .ok prepared := h2
          have hpre : d :: tlp = prepared := (Except.ok.injEq _ _).mp h'
          obtain ⟨ihw, ihl⟩ := ih tlp hr
          constructor
          · rw [prepare_loop_cons, hone]
            show (save_dir ++ "/" ++ name ++ "." ++ idf ++ ".zarr", "w")
                :: (prepare_loop name save_dir true tl).1
              = ((idf, params) :: tl).map
                  (fun p => (save_dir ++ "/" ++ name ++ "." ++ p.1 ++ ".zarr", "w"))
            rw [List.map_cons, ihw]
          · rw [← hpre, List.length_cons, ihl, List.length_cons]

/-- C4 counterexample: a config whose `name` matches no open method but whose
`prepare` section only uses previously prepared stores completes without any
`ValueError` about the unknown name. -/
theorem unknown_name_without_valueerror :
    exceptOk (prepare_dataset
        (Config.mk (some "NotADataset")
          (some [("idx", PrepareParams.mk [(some "prepared", ["foo"])] false false)]))
        "sdir" true).2 = true ∧
      openMethods.contains "NotADataset" = false := by decide

/-- C4 (amended): a config with no `name` entry always raises the `ValueError`
listing the available open methods (this check runs first); a `name` entry
matching no open method raises the `ValueError` listing the available methods
only when preparation reaches a `uses` entry whose realm is not `"prepared"`
— a config using only previously prepared stores never triggers the check,
and a config without a `prepare` section raises the no-variables `ValueError`
instead. -/
theorem prepare_dataset_name_errors (cfg : Config) (save_dir : String)
    (save : Bool) (nm : String) (l : List (String × PrepareParams)) :
    (cfg.name = none →
      (prepare_dataset cfg save_dir save).2 = .error (.valueError noNameMsg)) ∧
    (cfg.name = some nm → openMethods.contains nm = false →
      cfg.prepare = some l →
      (∃ p ∈ l, ∃ u ∈ p.2.uses, u.1 ≠ some "prepared") →
      (prepare_dataset cfg save_dir save).2
        = .error (.valueError (unknownNameMsg nm))) := by
  obtain ⟨nameOpt, prepOpt⟩ := cfg
  constructor
  · intro h
    simp only at h
    subst h
    rfl
  · intro hn hcontains hp hbad
    simp only at hn hp
    subst hn
    subst hp
    obtain ⟨p, hpmem, u, humem, hnp⟩ := hbad
    show (prepare_loop nm save_dir save l).2 = .error (.valueError (unknownNameMsg nm))
    exact prepare_loop_unknown nm save_dir save hcontains l p u hpmem humem hnp

/-- Witness for the amended C4: the missing-name error and the unknown-name
error at concrete configs. -/
theorem prepare_dataset_name_errors_witness :
    (prepare_dataset (Config.mk none none) "sdir" true).2 = .error (.valueError noNameMsg) ∧
      (prepare_dataset
          (Config.mk (some "Nope")
            (some [("idx", PrepareParams.mk [(none, ["tas"])] false false)]))
          "sdir" true).2 = .error (.valueError (unknownNameMsg "Nope")) := by
  constructor
  · exact (prepare_dataset_name_errors (Config.mk none none) "sdir" true "" []).1 rfl
  · exact (prepare_dataset_name_errors
      (Config.mk (some "Nope")
        (some [("idx", PrepareParams.mk [(none, ["tas"])] false false)]))
      "sdir" true "Nope" [("idx", PrepareParams.mk [(none, ["tas"])] false false)]).2
      rfl (by decide) rfl
      ⟨("idx", PrepareParams.mk [(none, ["tas"])] false false), by decide, (none, ["tas"]),
        by decide, by decide⟩

/-- C6: for a config with a `prepare` section, a successful
`prepare_dataset` run with `save=True` writes exactly one Zarr store per
prepared identifier, at `{save_dir}/{name}.{identifier}.zarr` with overwrite
mode `"w"`, in config order, and returns one prepared dataset per identifier;
a config without a `prepare` section raises a `ValueError` and writes
nothing. -/
theorem prepare_dataset_writes (cfg : Config) (save_dir nm : String)
    (l : List (String × PrepareParams)) (prepared : List PDataset) :
    (cfg.name = some nm → cfg.prepare = some l →
      (prepare_dataset cfg save_dir true).2 = .ok prepared →
      (prepare_dataset cfg save_dir true).1
        = l.map (fun p => (save_dir ++ "/" ++ nm ++ "." ++ p.1 ++ ".zarr", "w"))
        ∧ prepared.length = l.length) ∧
    (cfg.prepare = none →
      raisesValueError (prepare_dataset cfg save_dir true).2 = true ∧
      (prepare_dataset cfg save_dir true).1 = ([] : List ZarrWrite)) := by
  obtain ⟨nameOpt, prepOpt⟩ := cfg
  constructor
  · intro hn hp hok
    simp only at hn hp
    subst hn
    subst hp
    exact prepare_loop_writes nm save_dir l prepared hok
  · intro hp
    simp only at hp
    subst hp
    cases nameOpt with
    | none => exact ⟨rfl, rfl⟩
    | some nm2 => exact ⟨rfl, rfl⟩

/-- Witness for C6 at a concrete one-identifier config: exactly one overwrite
write at the expected path, and the no-`prepare` `ValueError`. -/
theorem prepare_dataset_writes_witness :
    ((prepare_dataset
          (Config.mk (some "JRA55")
            (some [("tref", PrepareParams.mk [(some "atmos", ["t_ref"])] false false)]))
          "sdir" true).1
        = [(("tref", PrepareParams.mk [(some "atmos", ["t_ref"])] false false))].map
            (fun p => ("sdir" ++ "/" ++ "JRA55" ++ "." ++ p.1 ++ ".zarr", "w"))
        ∧ ([PDataset.pmerge [PDataset.openedData "JRA55" (some "atmos") ["t_ref"] false]]
            : List PDataset).length
          = [(("tref", PrepareParams.mk [(some "atmos", ["t_ref"])] false false))].length) ∧
      (raisesValueError (prepare_dataset (Config.mk (some "JRA55") none) "sdir" true).2 = true ∧
        (prepare_dataset (Config.mk (some "JRA55") none) "sdir" true).1 = ([] : List ZarrWrite)) := by
  constructor
  · exact (prepare_dataset_writes
      (Config.mk (some "JRA55")
        (some [("tref", PrepareParams.mk [(some "atmos", ["t_ref"])] false false)]))
      "sdir" "JRA55" [("tref", PrepareParams.mk [(some "atmos", ["t_ref"])] false false)]
      [PDataset.pmerge [PDataset.openedData "JRA55" (some "atmos") ["t_ref"] false]]).1
      rfl rfl (by rfl)
  · exact (prepare_dataset_writes (Config.mk (some "JRA55") none) "sdir" "JRA55" [] []).2 rfl

end Proofs

end CafeF6
